import Mathlib

/-!
Verification development for the SkillShare real-time messaging, typing,
notification, and review modules. The server-side route and socket handlers
are embedded as executable Lean functions over explicit state records:
the socket send-message handler, the typing-start and typing-stop handlers,
the POST and GET message routes, the notification routes, and the review
submission route. Socket rooms are modelled as membership pairs of a
connection identifier and a room name; emitting to a room resolves to the
list of member connections, with the originating socket excluded for
socket-scoped broadcasts, matching the semantics of the socket library used.
-/

/-- Lexicographic comparison of character lists, mirroring the default
JavaScript array sort comparison used on the pair of user identifiers. -/
def charListLe : List Char → List Char → Bool
  | [], _ => true
  | _ :: _, [] => false
  | a :: as, b :: bs =>
    if a = b then charListLe as bs else decide (a < b)

/-- Lexicographic order on strings via their character data. -/
def strLe (a b : String) : Bool := charListLe a.data b.data

/-- Thread key derivation of the POST messages route: the pair of sender and
recipient identities is sorted and joined with a dash. -/
def sortJoin (a b : String) : String :=
  if strLe a b then a ++ "-" ++ b else b ++ "-" ++ a

/-- A persisted chat message, as in the Message schema: threadId, sender,
recipient, content, type defaulting to text, status defaulting to sent,
and a creation timestamp. The id stands for the database object id. -/
structure Message where
  id : Nat
  threadId : String
  sender : String
  recipient : String
  content : String
  type : String
  status : String
  createdAt : Nat
  deriving DecidableEq

/-- One event pushed to one live connection: the target connection, the
event name, and the payload as a field list. -/
structure Delivery where
  conn : String
  event : String
  payload : List (String × String)
  deriving DecidableEq

/-- Server state for the chat module: the set of live connections, the room
membership pairs of connection and room, the persisted message store, a
fresh id counter and the current clock value used for createdAt stamps. -/
structure ChatState where
  conns : List String
  rooms : List (String × String)
  messages : List Message
  nextId : Nat
  clock : Nat
  deriving DecidableEq

/-- Room name for the personal room of a user, as joined by the join-user
handler. -/
def userRoom (u : String) : String := "user-" ++ u

/-- Connections that are members of a room, from a membership pair list. -/
def membersOf (rooms : List (String × String)) (room : String) : List String :=
  (rooms.filter (fun p => p.2 = room)).map (fun p => p.1)

/-- Connections that are members of a room in a chat state. -/
def roomMembers (st : ChatState) (room : String) : List String :=
  membersOf st.rooms room

/-- Outcome of a persistence call: success, a retryable failure such as a
transient connection loss, or a fatal failure such as a validation error.
The source catches both failure forms in one catch block. -/
inductive PersistResult where
  | ok
  | failRetryable
  | failFatal
  deriving DecidableEq

/-- Payload of the new-message event emitted by the socket send-message
handler: id, threadId, sender, content, type and createdAt. -/
def newMessagePayload (m : Message) : List (String × String) :=
  [("id", toString m.id), ("threadId", m.threadId), ("sender", m.sender),
   ("content", m.content), ("type", m.type), ("createdAt", toString m.createdAt)]

/-- The socket send-message handler. It persists the message built from the
client supplied fields, taking the threadId verbatim from the client data
and defaulting a falsy type to text. On success it emits new-message to the
recipient room excluding the originating socket, then message-sent back to
the originating socket. On any persistence failure it emits message-error
with a fixed error string to the originating socket only. -/
def handleSendMessage (st : ChatState) (selfConn : String)
    (tid sender recipient content : String) (mType : Option String)
    (pr : PersistResult) : ChatState × List Delivery :=
  match pr with
  | .ok =>
    let msg : Message :=
      { id := st.nextId, threadId := tid, sender := sender, recipient := recipient,
        content := content,
        type := match mType with
          | none => "text"
          | some t => if t = "" then "text" else t,
        status := "sent", createdAt := st.clock }
    let st2 := { st with messages := st.messages ++ [msg], nextId := st.nextId + 1 }
    let pushes := ((roomMembers st (userRoom recipient)).filter (fun c => c ≠ selfConn)).map
      (fun c => Delivery.mk c "new-message" (newMessagePayload msg))
    (st2, pushes ++ [Delivery.mk selfConn "message-sent"
      [("id", toString msg.id), ("status", "sent")]])
  | _ =>
    (st, [Delivery.mk selfConn "message-error" [("error", "Failed to send message")]])

/-- Payload of the new-message event emitted by the POST messages route,
which additionally carries the recipient field. -/
def apiMessagePayload (m : Message) : List (String × String) :=
  [("id", toString m.id), ("threadId", m.threadId), ("sender", m.sender),
   ("recipient", m.recipient), ("content", m.content), ("type", m.type),
   ("createdAt", toString m.createdAt)]

/-- HTTP result of the POST messages route. -/
inductive PostResult where
  | created (m : Message)
  | serverError (msg : String)
  deriving DecidableEq

/-- The POST messages route. It derives the thread key by sorting and
joining sender and recipient, persists the message, and on success emits
new-message through the global server emitter, that is to every live
connection, before answering the HTTP request. On failure it answers with
a server error and emits nothing. -/
def postMessages (st : ChatState) (sender recipient content : String)
    (mType : Option String) (pr : PersistResult) :
    ChatState × List Delivery × PostResult :=
  let tid := sortJoin sender recipient
  match pr with
  | .ok =>
    let msg : Message :=
      { id := st.nextId, threadId := tid, sender := sender, recipient := recipient,
        content := content,
        type := match mType with
          | none => "text"
          | some t => t,
        status := "sent", createdAt := st.clock }
    let st2 := { st with messages := st.messages ++ [msg], nextId := st.nextId + 1 }
    (st2, st.conns.map (fun c => Delivery.mk c "new-message" (apiMessagePayload msg)),
     PostResult.created msg)
  | _ => (st, [], PostResult.serverError "Failed to create message")

/-- Insertion step of the ascending sort by creation time used to model the
sorted find of the GET conversation route. -/
def insertByCreatedAt (m : Message) : List Message → List Message
  | [] => [m]
  | x :: xs =>
    if m.createdAt < x.createdAt then m :: x :: xs else x :: insertByCreatedAt m xs

/-- Ascending sort by creation time. -/
def sortByCreatedAt (l : List Message) : List Message :=
  l.foldr insertByCreatedAt []

/-- The GET messages route for one conversation partner. It finds all
messages between the caller and the partner sorted by creation time, then
marks the messages from the partner to the caller that are still in status
sent as read, and answers with the fetched list. -/
def getMessagesWith (st : ChatState) (userId partnerId : String) :
    ChatState × List Message :=
  let found := st.messages.filter (fun m =>
    (m.sender = userId && m.recipient = partnerId) ||
    (m.sender = partnerId && m.recipient = userId))
  let st2 := { st with messages := st.messages.map (fun m =>
    if m.sender = partnerId && m.recipient = userId && m.status = "sent"
    then { m with status := "read" } else m) }
  (st2, sortByCreatedAt found)

/-- The typing-start handler: emits user-typing with isTyping true to the
recipient room excluding the originating socket; no acknowledgment, no
state change. -/
def handleTypingStart (st : ChatState) (selfConn sender recipient : String) :
    ChatState × List Delivery :=
  (st, ((roomMembers st (userRoom recipient)).filter (fun c => c ≠ selfConn)).map
    (fun c => Delivery.mk c "user-typing" [("sender", sender), ("isTyping", "true")]))

/-- The typing-stop handler: emits user-typing with isTyping false to the
recipient room excluding the originating socket; no acknowledgment, no
state change. -/
def handleTypingStop (st : ChatState) (selfConn sender recipient : String) :
    ChatState × List Delivery :=
  (st, ((roomMembers st (userRoom recipient)).filter (fun c => c ≠ selfConn)).map
    (fun c => Delivery.mk c "user-typing" [("sender", sender), ("isTyping", "false")]))

/-- A persisted notification, as in the Notification schema: owner, type,
title, message body, a data bag, a read flag defaulting to false, and a
creation timestamp. -/
structure Notification where
  id : Nat
  userId : String
  type : String
  title : String
  message : String
  data : List (String × String)
  read : Bool
  createdAt : Nat
  deriving DecidableEq

/-- Server state for the notification module: the persisted store, a fresh
id counter and the clock used for createdAt stamps. -/
structure NotifState where
  notifs : List Notification
  nextId : Nat
  clock : Nat
  deriving DecidableEq

/-- Payload of the new-notification event. -/
def notificationPayload (n : Notification) : List (String × String) :=
  [("id", toString n.id), ("type", n.type), ("title", n.title),
   ("message", n.message), ("createdAt", toString n.createdAt)]

/-- The notification service creation operation: persists the notification
with the read flag defaulting to false, then emits new-notification to the
personal room of the owner through the server emitter, reaching every
member of that room. A persistence failure is rethrown and nothing is
stored or emitted. -/
def createNotification (st : NotifState) (rooms : List (String × String))
    (userId ntype title body : String) (d : List (String × String)) (ok : Bool) :
    NotifState × List Delivery :=
  if ok then
    let n : Notification :=
      { id := st.nextId, userId := userId, type := ntype, title := title,
        message := body, data := d, read := false, createdAt := st.clock }
    ({ st with notifs := st.notifs ++ [n], nextId := st.nextId + 1 },
     (membersOf rooms (userRoom userId)).map
       (fun c => Delivery.mk c "new-notification" (notificationPayload n)))
  else (st, [])

/-- Replace the first element satisfying a predicate, modelling a find one
and update call on the document store. -/
def replaceFirst (p : Notification → Bool) (f : Notification → Notification) :
    List Notification → List Notification
  | [] => []
  | x :: xs => if p x then f x :: xs else x :: replaceFirst p f xs

/-- The PUT notification read route: find one notification matching id and
owner, set its read flag to true, and answer with the updated document, or
answer not found when no document matches. -/
def markNotificationRead (st : NotifState) (nid : Nat) (caller : String) :
    NotifState × Option Notification :=
  match st.notifs.find? (fun n => n.id = nid && n.userId = caller) with
  | none => (st, none)
  | some n =>
    ({ st with notifs := replaceFirst (fun m => m.id = nid && m.userId = caller)
                           (fun m => { m with read := true }) st.notifs },
     some { n with read := true })

/-- The PUT read-all route: set the read flag to true on every unread
notification of the caller. -/
def markAllNotificationsRead (st : NotifState) (caller : String) : NotifState :=
  { st with notifs := st.notifs.map (fun n =>
    if n.userId = caller && n.read = false then { n with read := true } else n) }

/-- The DELETE notification route: find one notification matching id and
owner and remove it, or answer not found. -/
def deleteNotification (st : NotifState) (nid : Nat) (caller : String) :
    NotifState × Option Notification :=
  match st.notifs.find? (fun n => n.id = nid && n.userId = caller) with
  | none => (st, none)
  | some n =>
    ({ st with notifs := st.notifs.eraseP (fun m => m.id = nid && m.userId = caller) },
     some n)

/-- Insertion step of the descending sort by creation time used by the
notification listing route. -/
def insertByCreatedAtDesc (n : Notification) :
    List Notification → List Notification
  | [] => [n]
  | x :: xs =>
    if x.createdAt < n.createdAt then n :: x :: xs else x :: insertByCreatedAtDesc n xs

/-- Descending sort by creation time. -/
def sortByCreatedAtDesc (l : List Notification) : List Notification :=
  l.foldr insertByCreatedAtDesc []

/-- The GET notifications route: the notifications of the caller sorted
newest first with skip and limit applied, together with the count of the
unread ones. -/
def listNotifications (st : NotifState) (caller : String) (lim off : Nat) :
    List Notification × Nat :=
  let mine := sortByCreatedAtDesc (st.notifs.filter (fun n => n.userId = caller))
  ((mine.drop off).take lim,
   (st.notifs.filter (fun n => n.userId = caller && n.read = false)).length)

/-- One operation of the notification component, used to state store
invariants across arbitrary operation sequences. -/
inductive NotifOp where
  | create (userId ntype title body : String) (d : List (String × String)) (ok : Bool)
  | markReadOp (nid : Nat) (caller : String)
  | readAllOp (caller : String)
  | deleteOp (nid : Nat) (caller : String)
  | listOp (caller : String) (lim off : Nat)
  deriving DecidableEq

/-- The store transition of one notification operation. -/
def stepNotif (st : NotifState) : NotifOp → NotifState
  | .create u t ti b d ok => (createNotification st [] u t ti b d ok).1
  | .markReadOp nid c => (markNotificationRead st nid c).1
  | .readAllOp c => markAllNotificationsRead st c
  | .deleteOp nid c => (deleteNotification st nid c).1
  | .listOp _ _ _ => st

/-- The empty notification store. -/
def initNotifState : NotifState := { notifs := [], nextId := 0, clock := 0 }

/-- Run a sequence of notification operations from the empty store. -/
def runNotifOps (ops : List NotifOp) : NotifState :=
  ops.foldl stepNotif initNotifState

/-- Store ids are pairwise distinct and below the fresh id counter. This is
the shape every reachable notification store has. -/
def FreshIds (st : NotifState) : Prop :=
  (st.notifs.map (fun n => n.id)).Pairwise (fun a b => a ≠ b) ∧
  ∀ n ∈ st.notifs, n.id < st.nextId

/-- A persisted review, as in the Review schema. -/
structure Review where
  userId : String
  reviewerId : String
  reviewerName : String
  rating : Rat
  comment : String
  deriving DecidableEq

/-- The user fields the review route touches. -/
structure UserRec where
  id : String
  firstName : String
  lastName : String
  rating : Rat
  deriving DecidableEq

/-- Server state for the review module: the review store and the user
store. -/
structure ReviewState where
  reviews : List Review
  users : List UserRec
  deriving DecidableEq

/-- HTTP result of the review submission route. -/
inductive ReviewResult where
  | created (rv : Review)
  | badRequest (msg : String)
  | notFound (msg : String)
  deriving DecidableEq

/-- The POST review route: reject a self review, reject a duplicate review
by the same reviewer for the same target, reject an unknown reviewer, and
otherwise create the review and update the stored rating of the target to
the average over all reviews of the target. -/
def submitReview (st : ReviewState) (targetId reviewerId : String)
    (rating : Rat) (comment : String) : ReviewState × ReviewResult :=
  if targetId = reviewerId then
    (st, ReviewResult.badRequest "Cannot review yourself")
  else if st.reviews.any (fun rv => rv.userId = targetId && rv.reviewerId = reviewerId) then
    (st, ReviewResult.badRequest "You have already reviewed this user")
  else
    match st.users.find? (fun u => u.id = reviewerId) with
    | none => (st, ReviewResult.notFound "Reviewer not found")
    | some reviewer =>
      let rv : Review :=
        { userId := targetId, reviewerId := reviewerId,
          reviewerName := reviewer.firstName ++ " " ++ reviewer.lastName,
          rating := rating, comment := comment }
      let reviews2 := st.reviews ++ [rv]
      let forTarget := reviews2.filter (fun x => x.userId = targetId)
      let avg : Rat := (forTarget.map (fun x => x.rating)).sum / (forTarget.length : Rat)
      ({ reviews := reviews2,
         users := st.users.map (fun u =>
           if u.id = targetId then { u with rating := avg } else u) },
       ReviewResult.created rv)

/-- Demo state with three users alice, bob and carol, one connection each. -/
def chatDemo : ChatState :=
  { conns := ["cA", "cB", "cC"],
    rooms := [("cA", "user-alice"), ("cB", "user-bob"), ("cC", "user-carol")],
    messages := [], nextId := 0, clock := 7 }

/-- Demo state with two users a and b, one connection each. -/
def chatTwo : ChatState :=
  { conns := ["cA", "cB"],
    rooms := [("cA", "user-a"), ("cB", "user-b")],
    messages := [], nextId := 0, clock := 3 }

/-- Demo state where only the sender s is connected; the recipient r has no
live connection. -/
def chatOffline : ChatState :=
  { conns := ["cS"], rooms := [("cS", "user-s")],
    messages := [], nextId := 0, clock := 1 }

/-- The message the POST route stores for sender b and recipient a in the
chatTwo demo state. -/
def postMsgDemo : Message :=
  { id := 0, threadId := "a-b", sender := "b", recipient := "a",
    content := "hi", type := "text", status := "sent", createdAt := 3 }

/-- A notification of user u that is already read. -/
def notifRead : Notification :=
  { id := 0, userId := "u", type := "message", title := "t", message := "m",
    data := [], read := true, createdAt := 0 }

/-- A store holding exactly the already read notification of user u. -/
def notifDemo : NotifState := { notifs := [notifRead], nextId := 1, clock := 0 }

/-- An operation sequence that creates one notification for user u and
marks it read. -/
def opsDemo : List NotifOp :=
  [NotifOp.create "u" "message" "t" "m" [] true, NotifOp.markReadOp 0 "u"]

/-- Demo review state: reviewer r1 has already reviewed target t1. -/
def reviewDemo : ReviewState :=
  { reviews := [{ userId := "t1", reviewerId := "r1", reviewerName := "R One",
                  rating := 5, comment := "good" }],
    users := [{ id := "r1", firstName := "R", lastName := "One", rating := 5 }] }

theorem charListLe_refl (l : List Char) : charListLe l l = true := by
  induction l with
  | nil => rfl
  | cons a as ih => simp [charListLe, ih]

theorem charListLe_total (a b : List Char) :
    charListLe a b = true ∨ charListLe b a = true := by
  induction a generalizing b with
  | nil => left; rfl
  | cons x xs ih =>
    cases b with
    | nil => right; rfl
    | cons y ys =>
      by_cases h : x = y
      · subst h
        simpa [charListLe] using ih ys
      · rcases lt_or_gt_of_ne h with hlt | hgt
        · left; simp [charListLe, h, hlt]
        · right; simp [charListLe, Ne.symm h, hgt]

theorem charListLe_antisymm (a b : List Char)
    (h1 : charListLe a b = true) (h2 : charListLe b a = true) : a = b := by
  induction a generalizing b with
  | nil =>
    cases b with
    | nil => rfl
    | cons y ys => simp [charListLe] at h2
  | cons x xs ih =>
    cases b with
    | nil => simp [charListLe] at h1
    | cons y ys =>
      by_cases h : x = y
      · subst h
        simp only [charListLe, if_pos rfl] at h1 h2
        rw [ih ys h1 h2]
      · simp only [charListLe, if_neg h, if_neg (Ne.symm h), decide_eq_true_eq] at h1 h2
        exact absurd (lt_trans h1 h2) (lt_irrefl x)

/-- C4: the thread key derivation of the POST messages route is invariant
under swapping sender and recipient. -/
theorem sortJoin_comm (a b : String) : sortJoin a b = sortJoin b a := by
  unfold sortJoin strLe
  by_cases h1 : charListLe a.data b.data = true
  · by_cases h2 : charListLe b.data a.data = true
    · have he : a = b := String.ext (charListLe_antisymm a.data b.data h1 h2)
      subst he; rfl
    · simp [h1, h2]
  · have h2 : charListLe b.data a.data = true := by
      rcases charListLe_total a.data b.data with h | h
      · exact absurd h h1
      · exact h
    simp [h1, h2]

/-- C1: evaluated at a concrete failing input. With users alice, bob and
carol each holding one live connection, the POST messages route from alice
to bob pushes new-message to the connection of the third user carol, and no
message-sent acknowledgment is emitted on this path at all. -/
theorem postMessages_broadcasts_to_third_user :
    (∃ d ∈ (postMessages chatDemo "alice" "bob" "hi" none PersistResult.ok).2.1,
      d.conn = "cC" ∧ d.event = "new-message") ∧
    (∀ d ∈ (postMessages chatDemo "alice" "bob" "hi" none PersistResult.ok).2.1,
      d.event ≠ "message-sent") := by decide

/-- C2 counterexample: the message-error event emitted on persistence
failure is identical for a retryable and for a fatal failure, a single
fixed error string, so its payload cannot carry a retryable versus fatal
indication. -/
theorem messageError_ignores_failure_kind :
    (handleSendMessage chatTwo "cA" "a-b" "a" "b" "hi" none PersistResult.failRetryable =
      handleSendMessage chatTwo "cA" "a-b" "a" "b" "hi" none PersistResult.failFatal) ∧
    (handleSendMessage chatTwo "cA" "a-b" "a" "b" "hi" none PersistResult.failRetryable).2 =
      [Delivery.mk "cA" "message-error" [("error", "Failed to send message")]] :=
  ⟨rfl, rfl⟩

/-- C2 amended: if persisting a chat message fails, the state is unchanged,
no new-message event is forwarded to any connection, and the originating
connection receives exactly one message-error event with a fixed error
string carrying no retryable versus fatal indication. -/
theorem sendMessage_failure_no_forward (st : ChatState) (c tid s r content : String)
    (mt : Option String) (pr : PersistResult) (h : pr ≠ PersistResult.ok) :
    (handleSendMessage st c tid s r content mt pr).1 = st ∧
    (handleSendMessage st c tid s r content mt pr).2 =
      [Delivery.mk c "message-error" [("error", "Failed to send message")]] := by
  cases pr with
  | ok => exact absurd rfl h
  | failRetryable => exact ⟨rfl, rfl⟩
  | failFatal => exact ⟨rfl, rfl⟩

theorem sendMessage_failure_no_forward_witness :
    (PersistResult.failRetryable ≠ PersistResult.ok) ∧
    ((handleSendMessage chatTwo "cA" "a-b" "a" "b" "hi" none PersistResult.failRetryable).1 = chatTwo ∧
     (handleSendMessage chatTwo "cA" "a-b" "a" "b" "hi" none PersistResult.failRetryable).2 =
       [Delivery.mk "cA" "message-error" [("error", "Failed to send message")]]) :=
  ⟨by decide,
   sendMessage_failure_no_forward chatTwo "cA" "a-b" "a" "b" "hi" none
     PersistResult.failRetryable (by decide)⟩

/-- C3 counterexample: the socket send-message handler stores the client
supplied thread id verbatim, so a reachable store state holds a message
whose threadId differs from the sorted and joined pair of its sender and
recipient. -/
theorem sendMessage_stores_client_threadId :
    ∃ m ∈ ((handleSendMessage chatTwo "cA" "zzz" "a" "b" "hi" none PersistResult.ok).1).messages,
      m.threadId ≠ sortJoin m.sender m.recipient := by decide

/-- C3 amended: every message created by the POST messages route has its
threadId equal to the sorted and joined pair of sender and recipient, while
every message created by the socket send-message handler stores the client
supplied threadId verbatim, which need not satisfy that shape. -/
theorem threadId_invariant_amended :
    (∀ st s r content mt,
      ∀ m ∈ ((postMessages st s r content mt PersistResult.ok).1).messages,
        m ∈ st.messages ∨ m.threadId = sortJoin s r) ∧
    (∀ st c tid s r content mt,
      ∀ m ∈ ((handleSendMessage st c tid s r content mt PersistResult.ok).1).messages,
        m ∈ st.messages ∨ m.threadId = tid) := by
  constructor
  · intro st s r content mt m hm
    simp only [postMessages, List.mem_append, List.mem_singleton] at hm
    rcases hm with h | h
    · exact Or.inl h
    · right; rw [h]
  · intro st c tid s r content mt m hm
    simp only [handleSendMessage, List.mem_append, List.mem_singleton] at hm
    rcases hm with h | h
    · exact Or.inl h
    · right; rw [h]

theorem threadId_invariant_amended_witness :
    (postMsgDemo ∈ ((postMessages chatTwo "b" "a" "hi" none PersistResult.ok).1).messages) ∧
    (postMsgDemo ∈ chatTwo.messages ∨ postMsgDemo.threadId = sortJoin "b" "a") :=
  ⟨by decide, threadId_invariant_amended.1 chatTwo "b" "a" "hi" none postMsgDemo (by decide)⟩

/-- C5 counterexample: in the hello scenario the recipient connection does
receive new-message, but its payload carries no status field at all, so the
claimed status sent field is absent. -/
theorem newMessage_payload_has_no_status :
    (∃ d ∈ (handleSendMessage chatTwo "cA" (sortJoin "a" "b") "a" "b" "hello" none PersistResult.ok).2,
      d.conn = "cB" ∧ d.event = "new-message") ∧
    (∀ d ∈ (handleSendMessage chatTwo "cA" (sortJoin "a" "b") "a" "b" "hello" none PersistResult.ok).2,
      d.event = "new-message" → ∀ kv ∈ d.payload, kv.1 ≠ "status") := by decide

/-- C5 amended: when user a sends hello to user b whose only live
connection is cB, the connection cB receives new-message carrying sender a,
content hello and type text with no status field, and the originating
connection cA receives message-sent with status sent. -/
theorem hello_delivery_amended (st : ChatState) (cA cB a b : String)
    (hroom : roomMembers st (userRoom b) = [cB]) (hne : cB ≠ cA) :
    (handleSendMessage st cA (sortJoin a b) a b "hello" none PersistResult.ok).2 =
      [Delivery.mk cB "new-message"
        [("id", toString st.nextId), ("threadId", sortJoin a b), ("sender", a),
         ("content", "hello"), ("type", "text"), ("createdAt", toString st.clock)],
       Delivery.mk cA "message-sent" [("id", toString st.nextId), ("status", "sent")]] := by
  simp [handleSendMessage, newMessagePayload, hroom, hne]

theorem hello_delivery_amended_witness :
    roomMembers chatTwo (userRoom "b") = ["cB"] ∧ ("cB" : String) ≠ "cA" ∧
    (handleSendMessage chatTwo "cA" (sortJoin "a" "b") "a" "b" "hello" none PersistResult.ok).2 =
      [Delivery.mk "cB" "new-message"
        [("id", toString chatTwo.nextId), ("threadId", sortJoin "a" "b"), ("sender", "a"),
         ("content", "hello"), ("type", "text"), ("createdAt", toString chatTwo.clock)],
       Delivery.mk "cA" "message-sent" [("id", toString chatTwo.nextId), ("status", "sent")]] :=
  ⟨by decide, by decide,
   hello_delivery_amended chatTwo "cA" "cB" "a" "b" (by decide) (by decide)⟩

/-- C6: typing indicator events go only to connections in the recipient
room, never back to the originating connection, carry exactly the sender
and the boolean state, and leave the server state unchanged. -/
theorem typing_targets_recipient_only :
    (∀ st c s r, (handleTypingStart st c s r).1 = st ∧
      ∀ d ∈ (handleTypingStart st c s r).2,
        d.conn ∈ roomMembers st (userRoom r) ∧ d.conn ≠ c ∧
        d.event = "user-typing" ∧ d.payload = [("sender", s), ("isTyping", "true")]) ∧
    (∀ st c s r, (handleTypingStop st c s r).1 = st ∧
      ∀ d ∈ (handleTypingStop st c s r).2,
        d.conn ∈ roomMembers st (userRoom r) ∧ d.conn ≠ c ∧
        d.event = "user-typing" ∧ d.payload = [("sender", s), ("isTyping", "false")]) := by
  constructor
  · intro st c s r
    refine ⟨rfl, ?_⟩
    intro d hd
    simp only [handleTypingStart, List.mem_map, List.mem_filter] at hd
    obtain ⟨c2, ⟨hmem, hne⟩, hd⟩ := hd
    subst hd
    simp only [decide_eq_true_eq] at hne
    exact ⟨hmem, hne, rfl, rfl⟩
  · intro st c s r
    refine ⟨rfl, ?_⟩
    intro d hd
    simp only [handleTypingStop, List.mem_map, List.mem_filter] at hd
    obtain ⟨c2, ⟨hmem, hne⟩, hd⟩ := hd
    subst hd
    simp only [decide_eq_true_eq] at hne
    exact ⟨hmem, hne, rfl, rfl⟩

theorem typing_targets_recipient_only_witness :
    (handleTypingStart chatTwo "cA" "a" "b").1 = chatTwo ∧
    ((Delivery.mk "cB" "user-typing" [("sender", "a"), ("isTyping", "true")]).conn ∈
        roomMembers chatTwo (userRoom "b") ∧
      (Delivery.mk "cB" "user-typing" [("sender", "a"), ("isTyping", "true")]).conn ≠ "cA" ∧
      (Delivery.mk "cB" "user-typing" [("sender", "a"), ("isTyping", "true")]).event = "user-typing" ∧
      (Delivery.mk "cB" "user-typing" [("sender", "a"), ("isTyping", "true")]).payload =
        [("sender", "a"), ("isTyping", "true")]) :=
  ⟨(typing_targets_recipient_only.1 chatTwo "cA" "a" "b").1,
   (typing_targets_recipient_only.1 chatTwo "cA" "a" "b").2
     (Delivery.mk "cB" "user-typing" [("sender", "a"), ("isTyping", "true")]) (by decide)⟩

theorem mem_insertByCreatedAt (m a : Message) (l : List Message) :
    a ∈ insertByCreatedAt m l ↔ a = m ∨ a ∈ l := by
  induction l with
  | nil => simp [insertByCreatedAt]
  | cons x xs ih =>
    simp only [insertByCreatedAt]
    by_cases h : m.createdAt < x.createdAt
    · simp [h]
    · simp [h, ih]
      tauto

theorem mem_sortByCreatedAt (a : Message) (l : List Message) :
    a ∈ sortByCreatedAt l ↔ a ∈ l := by
  induction l with
  | nil => simp [sortByCreatedAt]
  | cons x xs ih =>
    show a ∈ insertByCreatedAt x (sortByCreatedAt xs) ↔ _
    rw [mem_insertByCreatedAt, ih]
    simp

/-- C7: a chat message sent to a recipient with zero live connections is
still persisted on successful persistence, no new-message push happens, and
the record is returned by the conversation fetch of the recipient. -/
theorem offline_recipient_message_persisted (st : ChatState)
    (c tid s r content : String) (mt : Option String)
    (hoff : roomMembers st (userRoom r) = []) :
    (∃ m ∈ ((handleSendMessage st c tid s r content mt PersistResult.ok).1).messages,
      m.sender = s ∧ m.recipient = r ∧ m.content = content ∧
      m ∈ (getMessagesWith ((handleSendMessage st c tid s r content mt PersistResult.ok).1) r s).2) ∧
    (∀ d ∈ (handleSendMessage st c tid s r content mt PersistResult.ok).2,
      d.event ≠ "new-message") := by
  constructor
  · refine ⟨⟨st.nextId, tid, s, r, content,
               (match mt with | none => "text" | some t => if t = "" then "text" else t),
               "sent", st.clock⟩, ?_, rfl, rfl, rfl, ?_⟩
    · simp [handleSendMessage]
    · rw [getMessagesWith, mem_sortByCreatedAt]
      simp [handleSendMessage]
  · intro d hd
    simp only [handleSendMessage, hoff, List.filter_nil, List.map_nil, List.nil_append,
      List.mem_singleton] at hd
    subst hd
    simp

theorem offline_recipient_message_persisted_witness :
    roomMembers chatOffline (userRoom "r") = [] ∧
    ((∃ m ∈ ((handleSendMessage chatOffline "cS" "r-s" "s" "r" "yo" none PersistResult.ok).1).messages,
      m.sender = "s" ∧ m.recipient = "r" ∧ m.content = "yo" ∧
      m ∈ (getMessagesWith ((handleSendMessage chatOffline "cS" "r-s" "s" "r" "yo" none PersistResult.ok).1) "r" "s").2) ∧
    (∀ d ∈ (handleSendMessage chatOffline "cS" "r-s" "s" "r" "yo" none PersistResult.ok).2,
      d.event ≠ "new-message")) :=
  ⟨by decide,
   offline_recipient_message_persisted chatOffline "cS" "r-s" "s" "r" "yo" none (by decide)⟩

theorem find?_eq_of_unique (p : Notification → Bool) (l : List Notification)
    (n : Notification) (hn : n ∈ l) (hp : p n = true)
    (huniq : ∀ m ∈ l, p m = true → m = n) : l.find? p = some n := by
  induction l with
  | nil => simp at hn
  | cons x xs ih =>
    by_cases hx : p x = true
    · have hxn : x = n := huniq x (List.mem_cons_self x xs) hx
      subst hxn
      simp [List.find?, hx]
    · have hnxs : n ∈ xs := by
        rcases List.mem_cons.mp hn with h | h
        · exact absurd (h ▸ hp) hx
        · exact h
      have := ih hnxs (fun m hm hpm => huniq m (List.mem_cons_of_mem x hm) hpm)
      simp [List.find?, hx, this]

theorem replaceFirst_of_fix (p : Notification → Bool) (f : Notification → Notification)
    (l : List Notification) (hfix : ∀ m ∈ l, p m = true → f m = m) :
    replaceFirst p f l = l := by
  induction l with
  | nil => rfl
  | cons x xs ih =>
    by_cases hx : p x = true
    · simp [replaceFirst, hx, hfix x (List.mem_cons_self x xs) hx]
    · simp [replaceFirst, hx, ih (fun m hm hpm => hfix m (List.mem_cons_of_mem x hm) hpm)]

theorem setRead_eq_self (n : Notification) (h : n.read = true) :
    { n with read := true } = n := by
  cases n
  simp_all

/-- C8: marking an already read notification of the caller read again
leaves the store unchanged and answers success with the unchanged
document. -/
theorem markRead_idempotent (st : NotifState) (n : Notification) (caller : String)
    (hn : n ∈ st.notifs) (howner : n.userId = caller) (hread : n.read = true)
    (huniq : ∀ m ∈ st.notifs, m.id = n.id → m = n) :
    markNotificationRead st n.id caller = (st, some n) := by
  have hp : (fun m => m.id = n.id && m.userId = caller) n = true := by
    simp [howner]
  have hfind : st.notifs.find? (fun m => m.id = n.id && m.userId = caller) = some n := by
    apply find?_eq_of_unique _ _ n hn hp
    intro m hm hpm
    simp only [Bool.and_eq_true, decide_eq_true_eq] at hpm
    exact huniq m hm hpm.1
  have hfix : replaceFirst (fun m => m.id = n.id && m.userId = caller)
      (fun m => { m with read := true }) st.notifs = st.notifs := by
    apply replaceFirst_of_fix
    intro m hm hpm
    simp only [Bool.and_eq_true, decide_eq_true_eq] at hpm
    rw [huniq m hm hpm.1]
    exact setRead_eq_self n hread
  rw [markNotificationRead, hfind]
  simp [hfix, setRead_eq_self n hread]

theorem markRead_idempotent_witness :
    (notifRead ∈ notifDemo.notifs ∧ notifRead.userId = "u" ∧ notifRead.read = true ∧
      (∀ m ∈ notifDemo.notifs, m.id = notifRead.id → m = notifRead)) ∧
    markNotificationRead notifDemo notifRead.id "u" = (notifDemo, some notifRead) :=
  ⟨⟨by decide, by decide, by decide, by decide⟩,
   markRead_idempotent notifDemo notifRead "u" (by decide) (by decide) (by decide) (by decide)⟩

theorem mem_replaceFirst (p : Notification → Bool) (f : Notification → Notification)
    (l : List Notification) (a : Notification) (ha : a ∈ replaceFirst p f l) :
    a ∈ l ∨ ∃ m ∈ l, a = f m := by
  induction l with
  | nil => simp [replaceFirst] at ha
  | cons x xs ih =>
    simp only [replaceFirst] at ha
    by_cases hx : p x = true
    · rw [if_pos hx] at ha
      rcases List.mem_cons.mp ha with h | h
      · exact Or.inr ⟨x, List.mem_cons_self x xs, h⟩
      · exact Or.inl (List.mem_cons_of_mem x h)
    · rw [if_neg hx] at ha
      rcases List.mem_cons.mp ha with h | h
      · exact Or.inl (h ▸ List.mem_cons_self x xs)
      · rcases ih h with h2 | ⟨m, hm, he⟩
        · exact Or.inl (List.mem_cons_of_mem x h2)
        · exact Or.inr ⟨m, List.mem_cons_of_mem x hm, he⟩

theorem replaceFirst_map_id (p : Notification → Bool) (f : Notification → Notification)
    (hf : ∀ m, (f m).id = m.id) (l : List Notification) :
    (replaceFirst p f l).map (fun n => n.id) = l.map (fun n => n.id) := by
  induction l with
  | nil => rfl
  | cons x xs ih =>
    simp only [replaceFirst]
    by_cases hx : p x = true
    · simp [hx, hf]
    · simp [hx, ih]

theorem eq_of_mem_of_id_eq (l : List Notification) :
    (l.map (fun n => n.id)).Pairwise (fun a b => a ≠ b) →
    ∀ a b : Notification, a ∈ l → b ∈ l → a.id = b.id → a = b := by
  induction l with
  | nil => intro _ a b ha _ _; simp at ha
  | cons x xs ih =>
    intro hp a b ha hb hid
    simp only [List.map_cons, List.pairwise_cons] at hp
    obtain ⟨hhead, htail⟩ := hp
    rcases List.mem_cons.mp ha with ha1 | ha1 <;> rcases List.mem_cons.mp hb with hb1 | hb1
    · rw [ha1, hb1]
    · subst ha1
      exact absurd hid (hhead b.id (List.mem_map_of_mem _ hb1))
    · subst hb1
      exact absurd hid.symm (hhead a.id (List.mem_map_of_mem _ ha1))
    · exact ih htail a b ha1 hb1 hid

theorem freshIds_step (st : NotifState) (hf : FreshIds st) (op : NotifOp) :
    FreshIds (stepNotif st op) := by
  obtain ⟨hpw, hlt⟩ := hf
  cases op with
  | create u t ti b d ok =>
    simp only [stepNotif, createNotification]
    split
    · constructor
      · simp only [List.map_append, List.map_cons, List.map_nil]
        rw [List.pairwise_append]
        refine ⟨hpw, List.pairwise_singleton _ _, ?_⟩
        intro i hi j hj
        simp only [List.mem_map] at hi
        obtain ⟨m, hm, hmi⟩ := hi
        simp only [List.mem_singleton] at hj
        subst hj; subst hmi
        exact Nat.ne_of_lt (hlt m hm)
      · intro n hn
        simp only [List.mem_append, List.mem_singleton] at hn
        rcases hn with h | h
        · exact Nat.lt_succ_of_lt (hlt n h)
        · subst h; exact Nat.lt_succ_self _
    · exact ⟨hpw, hlt⟩
  | markReadOp nid c =>
    simp only [stepNotif, markNotificationRead]
    split
    · exact ⟨hpw, hlt⟩
    · constructor
      · rw [replaceFirst_map_id _ (fun m => { m with read := true }) (fun m => rfl)]
        exact hpw
      · intro m hm
        rcases mem_replaceFirst _ _ _ m hm with h | ⟨m2, hm2, he⟩
        · exact hlt m h
        · subst he
          exact hlt m2 hm2
  | readAllOp c =>
    have hcomp : (fun n : Notification => n.id) ∘
        (fun n : Notification =>
          if n.userId = c && n.read = false then { n with read := true } else n) =
        (fun n : Notification => n.id) := by
      funext m
      simp only [Function.comp]
      split <;> rfl
    constructor
    · simp only [stepNotif, markAllNotificationsRead, List.map_map, hcomp]
      exact hpw
    · intro m hm
      simp only [stepNotif, markAllNotificationsRead, List.mem_map] at hm
      obtain ⟨m2, hm2, he⟩ := hm
      subst he
      by_cases h : (m2.userId = c && m2.read = false) = true
      · simp only [if_pos h]
        exact hlt m2 hm2
      · simp only [if_neg h]
        exact hlt m2 hm2
  | deleteOp nid c =>
    simp only [stepNotif, deleteNotification]
    split
    · exact ⟨hpw, hlt⟩
    · constructor
      · exact hpw.sublist (List.Sublist.map _ (List.eraseP_sublist _))
      · intro m hm
        exact hlt m (List.mem_of_mem_eraseP hm)
  | listOp c lim off => exact ⟨hpw, hlt⟩

theorem freshIds_run (ops : List NotifOp) : FreshIds (runNotifOps ops) := by
  suffices h : ∀ st, FreshIds st → FreshIds (ops.foldl stepNotif st) by
    refine h initNotifState ⟨List.Pairwise.nil, ?_⟩
    intro n hn
    simp [initNotifState] at hn
  induction ops with
  | nil => intro st hf; exact hf
  | cons op ops2 ih =>
    intro st hf
    exact ih (stepNotif st op) (freshIds_step st hf op)

theorem stepNotif_read_monotone (st : NotifState) (hf : FreshIds st) (op : NotifOp)
    (n : Notification) (hn : n ∈ st.notifs) (hr : n.read = true)
    (n2 : Notification) (hn2 : n2 ∈ (stepNotif st op).notifs) (hid : n2.id = n.id) :
    n2.read = true := by
  obtain ⟨hpw, hlt⟩ := hf
  cases op with
  | create u t ti b d ok =>
    simp only [stepNotif, createNotification] at hn2
    split at hn2
    · simp only [List.mem_append, List.mem_singleton] at hn2
      rcases hn2 with h | h
      · rw [eq_of_mem_of_id_eq st.notifs hpw n2 n h hn hid]
        exact hr
      · subst h
        simp only at hid
        exact absurd (hid ▸ hlt n hn) (lt_irrefl _)
    · rw [eq_of_mem_of_id_eq st.notifs hpw n2 n hn2 hn hid]
      exact hr
  | markReadOp nid c =>
    simp only [stepNotif, markNotificationRead] at hn2
    split at hn2
    · rw [eq_of_mem_of_id_eq st.notifs hpw n2 n hn2 hn hid]
      exact hr
    · rcases mem_replaceFirst _ _ _ n2 hn2 with h | ⟨m, hm, he⟩
      · rw [eq_of_mem_of_id_eq st.notifs hpw n2 n h hn hid]
        exact hr
      · subst he
        rfl
  | readAllOp c =>
    simp only [stepNotif, markAllNotificationsRead, List.mem_map] at hn2
    obtain ⟨m, hm, he⟩ := hn2
    subst he
    by_cases h : (m.userId = c && m.read = false) = true
    · rw [if_pos h]
    · rw [if_neg h] at hid ⊢
      rw [eq_of_mem_of_id_eq st.notifs hpw m n hm hn hid]
      exact hr
  | deleteOp nid c =>
    simp only [stepNotif, deleteNotification] at hn2
    split at hn2
    · rw [eq_of_mem_of_id_eq st.notifs hpw n2 n hn2 hn hid]
      exact hr
    · have h2 := List.mem_of_mem_eraseP hn2
      rw [eq_of_mem_of_id_eq st.notifs hpw n2 n h2 hn hid]
      exact hr
  | listOp c lim off =>
    rw [eq_of_mem_of_id_eq st.notifs hpw n2 n hn2 hn hid]
    exact hr

/-- C9: across any operation sequence of the notification component, a
notification that is read stays read in the following state whenever a
notification with the same id is still present. -/
theorem read_flag_monotone (ops : List NotifOp) (op : NotifOp)
    (n n2 : Notification) (hn : n ∈ (runNotifOps ops).notifs) (hr : n.read = true)
    (hn2 : n2 ∈ (stepNotif (runNotifOps ops) op).notifs) (hid : n2.id = n.id) :
    n2.read = true :=
  stepNotif_read_monotone (runNotifOps ops) (freshIds_run ops) op n hn hr n2 hn2 hid

theorem read_flag_monotone_witness :
    notifRead ∈ (runNotifOps opsDemo).notifs ∧ notifRead.read = true ∧
    notifRead ∈ (stepNotif (runNotifOps opsDemo) (NotifOp.readAllOp "u")).notifs ∧
    notifRead.read = true :=
  ⟨by decide, by decide, by decide,
   read_flag_monotone opsDemo (NotifOp.readAllOp "u") notifRead notifRead
     (by decide) (by decide) (by decide) rfl⟩

/-- C10: a self review or a duplicate review is rejected with a bad request
answer and the entire state, review store and user ratings included, is
unchanged. -/
theorem submitReview_rejection_atomic (st : ReviewState) (t rvr : String)
    (rating : Rat) (comment : String)
    (h : t = rvr ∨ ∃ rv ∈ st.reviews, rv.userId = t ∧ rv.reviewerId = rvr) :
    (submitReview st t rvr rating comment).1 = st ∧
    ∃ msg, (submitReview st t rvr rating comment).2 = ReviewResult.badRequest msg := by
  by_cases he : t = rvr
  · refine ⟨?_, "Cannot review yourself", ?_⟩ <;> simp [submitReview, he]
  · have hex : ∃ rv ∈ st.reviews, rv.userId = t ∧ rv.reviewerId = rvr := by
      rcases h with h | h
      · exact absurd h he
      · exact h
    have hany : (st.reviews.any (fun rv => rv.userId = t && rv.reviewerId = rvr)) = true := by
      rw [List.any_eq_true]
      obtain ⟨rv, hrv, h1, h2⟩ := hex
      exact ⟨rv, hrv, by simp [h1, h2]⟩
    refine ⟨?_, "You have already reviewed this user", ?_⟩ <;>
      simp [submitReview, he, hany]

theorem submitReview_rejection_atomic_witness :
    ("t1" = "r1" ∨ ∃ rv ∈ reviewDemo.reviews, rv.userId = "t1" ∧ rv.reviewerId = "r1") ∧
    ((submitReview reviewDemo "t1" "r1" 4 "x").1 = reviewDemo ∧
     ∃ msg, (submitReview reviewDemo "t1" "r1" 4 "x").2 = ReviewResult.badRequest msg) :=
  ⟨by decide, submitReview_rejection_atomic reviewDemo "t1" "r1" 4 "x" (by decide)⟩
